import Mathlib

/-!
Shallow embedding of `src/lab.c` (a minimal shell core): the tokenizer
`cmd_parse`, the trimmer `trim_white`, the prompt resolver `get_prompt`,
the directory changer `change_dir`, the builtin dispatcher `do_builtin`
and the session teardown `sh_destroy`, together with theorems checking the
specification's claims about them.

C strings are modelled as `List Char` (the bytes before the terminating
NUL); `char *` values that may be NULL are modelled as `Option`.  The
ambient process state consulted by the code (environment variables, the
`getpwuid(getuid())` lookup, which `chdir` targets succeed) is passed
explicitly as a `SysEnv` value.
-/

/-- The delimiter set `" \t\r\n"` passed to `strtok` by `cmd_parse`. -/
def isDelim (c : Char) : Bool :=
  c = ' ' || c = '\t' || c = '\r' || c = '\n'

/-- C `isspace` in the C locale, as used by `trim_white`:
    space, `\t`, `\n`, vertical tab (11), form feed (12), `\r`. -/
def isspace (c : Char) : Bool :=
  c = ' ' || c = '\t' || c = '\n' || c = Char.ofNat 11 || c = Char.ofNat 12 || c = '\r'

/-- The NUL byte that `strtok` writes over the delimiter ending a token. -/
def NUL : Char := Char.ofNat 0

/-- `strdup`: a fresh byte-for-byte copy of a string.  In the pure model a
    copy has the same value; the point is that `cmd_parse` hands this copy,
    never the caller's buffer, to `strtok`. -/
def strdup (s : List Char) : List Char := s

/-- The complete `strtok(line_copy, " \t\r\n")` iteration performed by
    `cmd_parse` (lab.c lines 92-103).  `acc` holds, reversed, the bytes of
    the token currently being scanned.  First component: the tokens, in
    order, each of which `cmd_parse` copies with `strdup` into the growing
    NULL-terminated array (modelled as the Lean list).  Second component:
    the scanned buffer after the run — `strtok` skips delimiters in place
    and overwrites with NUL exactly the delimiter byte that terminated each
    token. -/
def strtokAux : List Char → List Char → List (List Char) × List Char
  | [], acc => if acc.isEmpty then ([], []) else ([acc.reverse], acc.reverse)
  | c :: cs, acc =>
    if isDelim c then
      if acc.isEmpty then
        ((strtokAux cs []).1, c :: (strtokAux cs []).2)
      else
        (acc.reverse :: (strtokAux cs []).1, acc.reverse ++ NUL :: (strtokAux cs []).2)
    else
      strtokAux cs (c :: acc)

/-- `cmd_parse` (lab.c lines 78-108): duplicates the input line, splits the
    copy with `strtok` on `" \t\r\n"`, storing a `strdup` of each token in a
    NULL-terminated array (the Lean list; the list end plays the NULL
    sentinel's role).  The token buffer grows by doubling and never
    truncates, so the model keeps every token. -/
def cmd_parse (line : List Char) : List (List Char) :=
  (strtokAux (strdup line) []).1

/-- `cmd_parse` together with the caller's buffer after the call: every
    write `strtok` performs lands in the `strdup`-ed working copy
    (`line_copy`), which is freed before returning, so the caller's string
    is handed back exactly as it was. -/
def cmd_parse_mem (input : List Char) : List (List Char) × List Char :=
  ((strtokAux (strdup input) []).1, input)

/-- Modelled from the spec's words, for comparison with `cmd_parse`: the
    maximal runs of non-whitespace characters of the line, left to right —
    split the line at whitespace and drop the empty pieces that leading,
    trailing or repeated separators produce. -/
def maximalRuns (l : List Char) : List (List Char) :=
  (l.splitOnP isDelim).filter (fun t => !t.isEmpty)

/-- `trim_white` (lab.c lines 133-152).  A NULL pointer is returned
    unchanged.  Otherwise the pointer is advanced past leading `isspace`
    bytes; if nothing remains the (empty) tail is returned; otherwise a NUL
    is written after the last non-`isspace` byte and the advanced pointer is
    returned.  The backward scan `while (end > line && isspace(*end))` stops
    at the first non-space byte; since the first byte after the advance is
    non-space, the guard `end > line` can never be the reason it stops, so
    dropping trailing `isspace` bytes models it exactly. -/
def trim_white : Option (List Char) → Option (List Char)
  | none => none
  | some line =>
    let l := line.dropWhile isspace
    if l.isEmpty then some l
    else some ((l.reverse.dropWhile isspace).reverse)

/-- `get_prompt` (lab.c lines 19-26): `strdup` of the value of the
    environment variable `env` when set, else `strdup` of `"shell>"`.
    `getenvF` is the ambient `getenv`. -/
def get_prompt (env : String) (getenvF : String → Option String) : String :=
  match getenvF env with
  | some v => v
  | none => "shell>"

/-- The ambient process state read by `change_dir` and `do_builtin`:
    `getenv`, the result of `getpwuid(getuid())` (`none` for a NULL
    `passwd`, otherwise its `pw_dir`), and which targets `chdir` would
    succeed on. -/
structure SysEnv where
  getenv : String → Option String
  pw_dir : Option String
  chdirOk : String → Bool

/-- Observable outcome of one `change_dir` call: the returned `int`, the
    target handed to `chdir` (`none` when `chdir` was never called), and
    whether a `perror` diagnostic was emitted. -/
structure CdOutcome where
  ret : Int
  attempted : Option String
  diag : Bool
deriving DecidableEq

/-- `change_dir` (lab.c lines 39-64): target is `dir[1]` if non-NULL, else
    `getenv("HOME")` if set, else `pw_dir` of `getpwuid(getuid())`; when all
    three fail it perrors and returns -1 without calling `chdir`; otherwise
    it calls `chdir(target)` and returns its result, perroring on failure. -/
def change_dir (sys : SysEnv) (dir : List String) : CdOutcome :=
  let target : Option String :=
    match dir[1]? with
    | some d => some d
    | none =>
      match sys.getenv "HOME" with
      | some h => some h
      | none => sys.pw_dir
  match target with
  | none => { ret := -1, attempted := none, diag := true }
  | some t =>
    if sys.chdirOk t then { ret := 0, attempted := some t, diag := false }
    else { ret := -1, attempted := some t, diag := true }

/-- Modelled from the spec: `struct shell` is declared in `lab.h`, which is
    not under `src/`; its fields are taken from their uses in `src/lab.c`
    (`sh_init`, `sh_destroy`) and from the spec's data model — the
    interactivity flag, the terminal descriptor, the process-group id, the
    saved terminal attributes (an opaque blob, modelled as a `Nat`), and the
    owned prompt string (`none` for a NULL pointer). -/
structure Shell where
  shell_is_interactive : Bool
  shell_terminal : Int
  shell_pgid : Int
  shell_tmodes : Nat
  prompt : Option String
deriving DecidableEq

/-- How one `do_builtin` call ends: either the function returns a `bool` to
    its caller, or the process is terminated by `exit(0)` and nothing is
    returned. -/
inductive BuiltinResult where
  | ret : Bool → BuiltinResult
  | exited : BuiltinResult
deriving DecidableEq

/-- `do_builtin` (lab.c lines 164-184).  The shell argument is explicitly
    unused (`(void)sh`).  A NULL or empty argv is not handled.  `"exit"`
    returns true when `SKIP_EXIT` equals `"1"`, else calls `exit(0)`;
    `"cd"` calls `change_dir(argv)` and returns true whatever it returned;
    `"history"` returns true doing nothing; anything else returns false.
    The second component records the `change_dir` invocation, if any. -/
def do_builtin (sys : SysEnv) (sh : Option Shell) (argv : Option (List String)) :
    BuiltinResult × Option CdOutcome :=
  match argv with
  | none => (BuiltinResult.ret false, none)
  | some args =>
    match args with
    | [] => (BuiltinResult.ret false, none)
    | a0 :: _ =>
      if a0 = "exit" then
        match sys.getenv "SKIP_EXIT" with
        | some v =>
          if v = "1" then (BuiltinResult.ret true, none)
          else (BuiltinResult.exited, none)
        | none => (BuiltinResult.exited, none)
      else if a0 = "cd" then (BuiltinResult.ret true, some (change_dir sys args))
      else if a0 = "history" then (BuiltinResult.ret true, none)
      else (BuiltinResult.ret false, none)

/-- `sh_destroy` (lab.c lines 228-234): a NULL shell is left alone;
    otherwise, if the prompt is non-NULL it is freed and the field nulled.
    The second component records whether `free` was called on the prompt. -/
def sh_destroy : Option Shell → Option Shell × Bool
  | none => (none, false)
  | some sh =>
    match sh.prompt with
    | some _ => (some { sh with prompt := none }, true)
    | none => (some sh, false)

/-! ### Tokenizer lemmas -/

theorem maximalRuns_nil : maximalRuns [] = [] := rfl

theorem maximalRuns_cons_delim {c : Char} (hc : isDelim c = true) (cs : List Char) :
    maximalRuns (c :: cs) = maximalRuns cs := by
  simp [maximalRuns, List.splitOnP_cons, hc]

theorem maximalRuns_single_run {m : List Char} (hm : ∀ x ∈ m, isDelim x = false)
    (hne : m ≠ []) : maximalRuns m = [m] := by
  have h1 : m.splitOnP isDelim = [m] :=
    List.splitOnP_eq_single isDelim m (fun x hx => by simp [hm x hx])
  simp [maximalRuns, h1, hne]

theorem maximalRuns_append_run {m : List Char} (hm : ∀ x ∈ m, isDelim x = false)
    (hne : m ≠ []) {c : Char} (hc : isDelim c = true) (cs : List Char) :
    maximalRuns (m ++ c :: cs) = m :: maximalRuns cs := by
  have h1 : (m ++ c :: cs).splitOnP isDelim = m :: cs.splitOnP isDelim :=
    List.splitOnP_first isDelim m (fun x hx => by simp [hm x hx]) c hc cs
  simp [maximalRuns, h1, hne]

theorem maximalRuns_all_delim {l : List Char} (h : ∀ c ∈ l, isDelim c = true) :
    maximalRuns l = [] := by
  induction l with
  | nil => rfl
  | cons c cs ih =>
    rw [maximalRuns_cons_delim (h c (List.mem_cons_self c cs)) cs]
    exact ih (fun x hx => h x (List.mem_cons_of_mem c hx))

theorem strtokAux_fst (l : List Char) : ∀ acc : List Char,
    (∀ c ∈ acc, isDelim c = false) →
    (strtokAux l acc).1 = maximalRuns (acc.reverse ++ l) := by
  induction l with
  | nil =>
    intro acc hacc
    by_cases ha : acc = []
    · subst ha; simp [strtokAux, maximalRuns_nil]
    · have hrev : acc.reverse ≠ [] := by simpa using ha
      have hmem : ∀ c ∈ acc.reverse, isDelim c = false := fun c hc =>
        hacc c (List.mem_reverse.mp hc)
      have hie : acc.isEmpty = false := by simpa [List.isEmpty_iff] using ha
      simp [strtokAux, hie, List.append_nil, maximalRuns_single_run hmem hrev]
  | cons c cs ih =>
    intro acc hacc
    by_cases hc : isDelim c = true
    · by_cases ha : acc = []
      · subst ha
        simp only [strtokAux, hc, if_true, List.isEmpty_nil, List.reverse_nil,
          List.nil_append]
        rw [ih [] (by simp), maximalRuns_cons_delim hc]
        simp
      · have hie : acc.isEmpty = false := by simpa [List.isEmpty_iff] using ha
        have hrev : acc.reverse ≠ [] := by simpa using ha
        have hmem : ∀ x ∈ acc.reverse, isDelim x = false := fun x hx =>
          hacc x (List.mem_reverse.mp hx)
        simp only [strtokAux, hc, if_true, hie, Bool.false_eq_true, if_false]
        rw [ih [] (by simp), maximalRuns_append_run hmem hrev hc cs]
        simp
    · have hc' : isDelim c = false := by simpa using hc
      have hacc' : ∀ x ∈ c :: acc, isDelim x = false := by
        intro x hx
        rcases List.mem_cons.mp hx with h | h
        · subst h; exact hc'
        · exact hacc x h
      simp only [strtokAux, hc', Bool.false_eq_true, if_false]
      rw [ih (c :: acc) hacc', List.reverse_cons, List.append_assoc,
        List.singleton_append]

theorem strtokAux_fst_ne_nil (l : List Char) : ∀ acc : List Char,
    ∀ t ∈ (strtokAux l acc).1, t ≠ [] := by
  induction l with
  | nil =>
    intro acc t ht
    by_cases ha : acc = []
    · subst ha; simp [strtokAux] at ht
    · have hie : acc.isEmpty = false := by simpa [List.isEmpty_iff] using ha
      simp [strtokAux, hie] at ht
      subst ht; simpa using ha
  | cons c cs ih =>
    intro acc t ht
    by_cases hc : isDelim c = true
    · by_cases ha : acc = []
      · subst ha
        simp only [strtokAux, hc, if_true, List.isEmpty_nil] at ht
        exact ih [] t ht
      · have hie : acc.isEmpty = false := by simpa [List.isEmpty_iff] using ha
        simp only [strtokAux, hc, if_true, hie, Bool.false_eq_true, if_false,
          List.mem_cons] at ht
        rcases ht with h | h
        · subst h; simpa using ha
        · exact ih [] t h
    · have hc' : isDelim c = false := by simpa using hc
      simp only [strtokAux, hc', Bool.false_eq_true, if_false] at ht
      exact ih (c :: acc) t ht

/-- C1: for every input line, `cmd_parse` returns exactly the maximal runs
    of non-whitespace characters of the line, in left-to-right order (the
    Lean list end playing the NULL sentinel's role); no returned token is
    the empty string, and an empty or all-whitespace input yields zero
    tokens. -/
theorem cmd_parse_spec (line : List Char) :
    cmd_parse line = maximalRuns line ∧
    (∀ t ∈ cmd_parse line, t ≠ []) ∧
    ((∀ c ∈ line, isDelim c = true) → cmd_parse line = []) := by
  have h1 : cmd_parse line = maximalRuns line := by
    have := strtokAux_fst line [] (by simp)
    simpa [cmd_parse, strdup] using this
  refine ⟨h1, ?_, ?_⟩
  · intro t ht
    exact strtokAux_fst_ne_nil line [] t ht
  · intro hall
    rw [h1]
    exact maximalRuns_all_delim hall

/-- Witness for C1 at concrete inputs. -/
theorem cmd_parse_spec_witness :
    cmd_parse (String.toList "foo -v") = [String.toList "foo", String.toList "-v"] ∧
    cmd_parse (String.toList " \t ") = [] := by
  constructor
  · rw [(cmd_parse_spec (String.toList "foo -v")).1]; decide
  · exact (cmd_parse_spec (String.toList " \t ")).2.2 (by decide)

/-- C8: `cmd_parse` never mutates the caller's line — the buffer handed
    back is byte-for-byte the input, because `strtok` scans (and writes
    its NUL terminators into) the internal `strdup`-ed working copy only;
    on `"a b"` that working copy really is mutated. -/
theorem cmd_parse_no_mutation (line : List Char) :
    (cmd_parse_mem line).2 = line ∧
    (cmd_parse_mem line).1 = cmd_parse line ∧
    (strtokAux (strdup (String.toList "a b")) []).2 ≠ String.toList "a b" := by
  exact ⟨rfl, rfl, by decide⟩

/-! ### Trimmer lemmas -/

theorem dropWhile_head?_false {p : Char → Bool} {l : List Char} {c : Char}
    (h : (l.dropWhile p).head? = some c) : p c = false := by
  have h2 := List.head?_dropWhile_not p l
  rw [h] at h2
  exact h2

/-- C2: `trim_white` maps NULL to NULL; on a string it returns the string
    with all leading and trailing C-locale whitespace removed — the input
    decomposes as whitespace, then the result (whose first and last byte,
    if any, are non-whitespace), then whitespace — and an all-whitespace
    string trims to the empty string. -/
theorem trim_white_spec (line : List Char) :
    trim_white none = none ∧
    (∃ pre t suf, trim_white (some line) = some t ∧
      line = pre ++ t ++ suf ∧
      (∀ c ∈ pre, isspace c = true) ∧
      (∀ c ∈ suf, isspace c = true) ∧
      (∀ c, t.head? = some c → isspace c = false) ∧
      (∀ c, t.getLast? = some c → isspace c = false)) ∧
    ((∀ c ∈ line, isspace c = true) → trim_white (some line) = some []) := by
  refine ⟨rfl, ?_, ?_⟩
  · by_cases hm : (line.dropWhile isspace).isEmpty
    · have hnil : line.dropWhile isspace = [] := by simpa [List.isEmpty_iff] using hm
      refine ⟨line.takeWhile isspace, [], [], ?_, ?_, ?_, ?_, ?_, ?_⟩
      · simp [trim_white, hnil]
      · simpa [hnil] using (List.takeWhile_append_dropWhile isspace line).symm
      · exact fun c hc => List.mem_takeWhile_imp hc
      · intro c hc; simp at hc
      · intro c hc; simp at hc
      · intro c hc; simp at hc
    · have hnil : line.dropWhile isspace ≠ [] := by simpa [List.isEmpty_iff] using hm
      set m := line.dropWhile isspace with hmdef
      set t := (m.reverse.dropWhile isspace).reverse with htdef
      set suf := (m.reverse.takeWhile isspace).reverse with hsufdef
      have hsplit : t ++ suf = m := by
        rw [htdef, hsufdef, ← List.reverse_append, List.takeWhile_append_dropWhile,
          List.reverse_reverse]
      refine ⟨line.takeWhile isspace, t, suf, ?_, ?_, ?_, ?_, ?_, ?_⟩
      · simp only [trim_white, hm, Bool.false_eq_true, if_false]
      · calc line = line.takeWhile isspace ++ m :=
              (List.takeWhile_append_dropWhile isspace line).symm
          _ = line.takeWhile isspace ++ t ++ suf := by rw [← hsplit, List.append_assoc]
      · exact fun c hc => List.mem_takeWhile_imp hc
      · intro c hc
        rw [hsufdef, List.mem_reverse] at hc
        exact List.mem_takeWhile_imp hc
      · intro c hc
        have hhead : m.head? = some c := by
          rcases ht : t with _ | ⟨d, ds⟩
          · rw [ht] at hc; simp at hc
          · rw [ht] at hc hsplit
            simp only [List.head?_cons, Option.some.injEq] at hc
            rw [← hsplit, hc]
            simp
        exact dropWhile_head?_false hhead
      · intro c hc
        rw [htdef, List.getLast?_reverse] at hc
        exact dropWhile_head?_false hc
  · intro hall
    have hnil : line.dropWhile isspace = [] :=
      List.dropWhile_eq_nil_iff.mpr (fun x hx => hall x hx)
    simp [trim_white, hnil]

/-- Witness for C2 at concrete inputs. -/
theorem trim_white_spec_witness :
    trim_white none = none ∧ trim_white (some (String.toList "  ")) = some [] :=
  ⟨(trim_white_spec []).1, (trim_white_spec (String.toList "  ")).2.2 (by decide)⟩

/-! ### Prompt resolver -/

/-- C3: `get_prompt` returns (a copy of) the variable's value whenever the
    variable is set — the empty value included — and (a copy of) the
    literal `"shell>"` when it is unset. -/
theorem get_prompt_spec (getenvF : String → Option String) (env : String) :
    (∀ v, getenvF env = some v → get_prompt env getenvF = v) ∧
    (getenvF env = some "" → get_prompt env getenvF = "") ∧
    (getenvF env = none → get_prompt env getenvF = "shell>") := by
  refine ⟨?_, ?_, ?_⟩
  · intro v hv; simp [get_prompt, hv]
  · intro hv; simp [get_prompt, hv]
  · intro hv; simp [get_prompt, hv]

/-- Witness for C3 at concrete environments. -/
theorem get_prompt_spec_witness :
    get_prompt "MY_PROMPT" (fun _ => none) = "shell>" ∧
    get_prompt "MY_PROMPT" (fun _ => some "") = "" ∧
    get_prompt "MY_PROMPT" (fun _ => some "foo>") = "foo>" :=
  ⟨(get_prompt_spec (fun _ => none) "MY_PROMPT").2.2 rfl,
    (get_prompt_spec (fun _ => some "") "MY_PROMPT").2.1 rfl,
    (get_prompt_spec (fun _ => some "foo>") "MY_PROMPT").1 "foo>" rfl⟩

/-! ### Directory changer -/

/-- C4: with `"cd"` as the command name, `change_dir` resolves the target
    by precedence — the second argument, else `HOME`, else the user
    database's home directory; when none of the three yields a directory it
    emits a diagnostic, returns -1, and never calls `chdir`; otherwise it
    calls `chdir` on the resolved target, returning 0 on success and -1
    with a diagnostic on failure. -/
theorem change_dir_spec (sys : SysEnv) (dir : List String)
    (h : dir[0]? = some "cd") :
    (∀ d, dir[1]? = some d →
      change_dir sys dir =
        if sys.chdirOk d then { ret := 0, attempted := some d, diag := false }
        else { ret := -1, attempted := some d, diag := true }) ∧
    (dir[1]? = none → ∀ hm, sys.getenv "HOME" = some hm →
      change_dir sys dir =
        if sys.chdirOk hm then { ret := 0, attempted := some hm, diag := false }
        else { ret := -1, attempted := some hm, diag := true }) ∧
    (dir[1]? = none → sys.getenv "HOME" = none → ∀ pd, sys.pw_dir = some pd →
      change_dir sys dir =
        if sys.chdirOk pd then { ret := 0, attempted := some pd, diag := false }
        else { ret := -1, attempted := some pd, diag := true }) ∧
    (dir[1]? = none → sys.getenv "HOME" = none → sys.pw_dir = none →
      change_dir sys dir = { ret := -1, attempted := none, diag := true }) := by
  refine ⟨?_, ?_, ?_, ?_⟩
  · intro d hd
    simp only [change_dir, hd]
  · intro h1 hm hh
    simp only [change_dir, h1, hh]
  · intro h1 hh pd hp
    simp only [change_dir, h1, hh, hp]
  · intro h1 hh hp
    simp only [change_dir, h1, hh, hp]

/-- Witness for C4: the resolution succeeds via the explicit argument and
    fails to resolve with no argument, no `HOME`, no user-database entry. -/
theorem change_dir_spec_witness :
    change_dir ⟨fun _ => none, none, fun _ => true⟩ ["cd", "/tmp"] =
      { ret := 0, attempted := some "/tmp", diag := false } ∧
    change_dir ⟨fun _ => none, none, fun _ => true⟩ ["cd"] =
      { ret := -1, attempted := none, diag := true } := by
  constructor
  · have h := (change_dir_spec ⟨fun _ => none, none, fun _ => true⟩ ["cd", "/tmp"]
      rfl).1 "/tmp" rfl
    simpa using h
  · exact (change_dir_spec ⟨fun _ => none, none, fun _ => true⟩ ["cd"]
      rfl).2.2.2 rfl rfl rfl

/-! ### Builtin dispatcher -/

/-- C5: on a `"cd"` command `do_builtin` reports handled (returns true)
    whatever `change_dir` did — the `change_dir` call happens (with the full
    argv) but its result is never reflected in the return value, which is
    `true` for every environment, in particular for every outcome of the
    underlying `chdir`. -/
theorem do_builtin_cd_handled (sys : SysEnv) (sh : Option Shell)
    (args : List String) (h : args[0]? = some "cd") :
    (do_builtin sys sh (some args)).1 = BuiltinResult.ret true ∧
    (do_builtin sys sh (some args)).2 = some (change_dir sys args) := by
  match args with
  | [] => simp at h
  | a0 :: rest =>
    simp only [List.getElem?_cons_zero, Option.some.injEq] at h
    subst h
    constructor <;> simp [do_builtin]

/-- Witness for C5: `["cd","/invalid/path"]` reports handled even though
    `chdir` fails on every target in this environment. -/
theorem do_builtin_cd_handled_witness :
    (do_builtin ⟨fun _ => none, none, fun _ => false⟩ none
      (some ["cd", "/invalid/path"])).1 = BuiltinResult.ret true ∧
    (do_builtin ⟨fun _ => none, none, fun _ => false⟩ none
      (some ["cd", "/invalid/path"])).2 =
      some { ret := -1, attempted := some "/invalid/path", diag := true } := by
  have h := do_builtin_cd_handled ⟨fun _ => none, none, fun _ => false⟩ none
    ["cd", "/invalid/path"] rfl
  exact ⟨h.1, by rw [h.2]; decide⟩

/-- C6: on an `"exit"` command, when `SKIP_EXIT` equals `"1"` `do_builtin`
    returns true without terminating the process; in every other
    environment it terminates the process via `exit(0)`. -/
theorem do_builtin_exit (sys : SysEnv) (sh : Option Shell)
    (args : List String) (h : args[0]? = some "exit") :
    (sys.getenv "SKIP_EXIT" = some "1" →
      do_builtin sys sh (some args) = (BuiltinResult.ret true, none)) ∧
    (sys.getenv "SKIP_EXIT" ≠ some "1" →
      do_builtin sys sh (some args) = (BuiltinResult.exited, none)) := by
  match args with
  | [] => simp at h
  | a0 :: rest =>
    simp only [List.getElem?_cons_zero, Option.some.injEq] at h
    subst h
    constructor
    · intro hs
      simp [do_builtin, hs]
    · intro hs
      rcases he : sys.getenv "SKIP_EXIT" with _ | v
      · simp [do_builtin, he]
      · have hv : v ≠ "1" := by
          intro hv; exact hs (by rw [he, hv])
        simp [do_builtin, he, hv]

/-- Witness for C6 in both environments. -/
theorem do_builtin_exit_witness :
    do_builtin ⟨fun _ => some "1", none, fun _ => true⟩ none (some ["exit"]) =
      (BuiltinResult.ret true, none) ∧
    do_builtin ⟨fun _ => none, none, fun _ => true⟩ none (some ["exit"]) =
      (BuiltinResult.exited, none) :=
  ⟨(do_builtin_exit ⟨fun _ => some "1", none, fun _ => true⟩ none ["exit"] rfl).1 rfl,
    (do_builtin_exit ⟨fun _ => none, none, fun _ => true⟩ none ["exit"] rfl).2
      (by decide)⟩

/-- C7: a NULL argv, an empty argv, or a first token other than `"exit"`,
    `"cd"` and `"history"` is reported not handled; a first token of
    `"history"` is reported handled with no action taken (no `exit`, no
    `change_dir` call). -/
theorem do_builtin_other (sys : SysEnv) (sh : Option Shell) :
    do_builtin sys sh none = (BuiltinResult.ret false, none) ∧
    do_builtin sys sh (some []) = (BuiltinResult.ret false, none) ∧
    (∀ (a0 : String) (rest : List String), a0 ≠ "exit" → a0 ≠ "cd" →
      a0 ≠ "history" →
      do_builtin sys sh (some (a0 :: rest)) = (BuiltinResult.ret false, none)) ∧
    (∀ rest : List String,
      do_builtin sys sh (some ("history" :: rest)) =
        (BuiltinResult.ret true, none)) := by
  refine ⟨rfl, rfl, ?_, ?_⟩
  · intro a0 rest h1 h2 h3
    simp [do_builtin, h1, h2, h3]
  · intro rest
    simp [do_builtin]

/-- Witness for C7 at concrete argument vectors. -/
theorem do_builtin_other_witness :
    do_builtin ⟨fun _ => none, none, fun _ => true⟩ none (some ["ls", "-l"]) =
      (BuiltinResult.ret false, none) ∧
    do_builtin ⟨fun _ => none, none, fun _ => true⟩ none (some ["history"]) =
      (BuiltinResult.ret true, none) :=
  ⟨(do_builtin_other ⟨fun _ => none, none, fun _ => true⟩ none).2.2.1 "ls" ["-l"]
      (by decide) (by decide) (by decide),
    (do_builtin_other ⟨fun _ => none, none, fun _ => true⟩ none).2.2.2 []⟩

/-! ### Session teardown -/

/-- C9: `sh_destroy` nulls the prompt field, leaves every other field
    unchanged, and frees the prompt exactly when one was owned; destroying
    the already-destroyed session frees nothing and changes nothing. -/
theorem sh_destroy_spec (sh : Shell) :
    (sh_destroy (some sh)).1 = some { sh with prompt := none } ∧
    (sh_destroy (some sh)).2 = sh.prompt.isSome ∧
    sh_destroy ((sh_destroy (some sh)).1) = ((sh_destroy (some sh)).1, false) := by
  rcases hp : sh.prompt with _ | p
  · refine ⟨?_, ?_, ?_⟩ <;> simp [sh_destroy, hp]
    cases sh
    simp_all
  · refine ⟨?_, ?_, ?_⟩ <;> simp [sh_destroy, hp]

/-- C10: `do_builtin` never reads its shell argument: any two session
    values — the NULL session included — give identical results and record
    identical actions for the same environment and argument vector. -/
theorem do_builtin_sh_independent (sys : SysEnv) (sh1 sh2 : Option Shell)
    (argv : Option (List String)) :
    do_builtin sys sh1 argv = do_builtin sys sh2 argv := rfl

/-- Witness for C8 at a concrete input. -/
theorem cmd_parse_no_mutation_witness :
    (cmd_parse_mem (String.toList "ls -a")).2 = String.toList "ls -a" :=
  (cmd_parse_no_mutation (String.toList "ls -a")).1

/-- Witness for C9 at a concrete session. -/
theorem sh_destroy_spec_witness :
    (sh_destroy (some ⟨true, 0, 0, 0, some "shell>"⟩)).1 =
      some ⟨true, 0, 0, 0, none⟩ ∧
    (sh_destroy (some ⟨true, 0, 0, 0, some "shell>"⟩)).2 = true := by
  have h := sh_destroy_spec ⟨true, 0, 0, 0, some "shell>"⟩
  exact ⟨h.1, h.2.1⟩

/-- Witness for C10 at two different sessions. -/
theorem do_builtin_sh_independent_witness :
    do_builtin ⟨fun _ => none, none, fun _ => true⟩ none (some ["history"]) =
      do_builtin ⟨fun _ => none, none, fun _ => true⟩
        (some ⟨true, 0, 0, 0, none⟩) (some ["history"]) :=
  do_builtin_sh_independent ⟨fun _ => none, none, fun _ => true⟩ none
    (some ⟨true, 0, 0, 0, none⟩) (some ["history"])
